import Mathlib

/-!
# ConnMon: a connection-monitor state machine

Shallow embedding of `src/ConnMon.cpp`.

* The four state singletons (`ConnMonState_Unconnected::Instance()`, ...) are the four
  constructors of `ConnMonState`. `Instance()` never returns a null pointer, so the
  `0 != m_state` / `0 != newState` guards of the source always pass and are not modelled.
* A pointer to the adapter is an `Option ConnMonAdapter`; `none` is the null pointer.
  Calling a member function through a null adapter pointer is undefined behaviour in the
  source; here the operation fails with `none`.
* The adapter's raw answers are inputs of the environment: every event carries the answers
  (`Raw`) which `lanConnectedRaw()` / `appProtocolConnectedRaw()` give while it is handled.
* Every call the monitor makes on a collaborator (adapter, trace port, timers) is appended
  to the history `calls` of the monitor, in program order.
-/

namespace ConnMonSpec

/-- The state singletons of the monitor. -/
inductive ConnMonState where
  | Unconnected
  | LanConnected
  | StableLanConnection
  | AppProtocolConnected
  deriving DecidableEq, Repr

/-- An adapter object, known by its identity only. -/
structure ConnMonAdapter where
  ident : Nat
  deriving DecidableEq, Repr

/-- The answers the adapter gives to its two raw queries while one event is handled. -/
structure Raw where
  lanRaw : Bool
  appRaw : Bool
  deriving DecidableEq, Repr

/-- The calls the monitor makes on its collaborators. -/
inductive Call where
  /-- `new Timer(adapter, isRecurring, millis)` in the constructor. -/
  | newTimer (isRecurring : Bool) (millis : Nat)
  /-- `new ConnMonAdapter()` in the constructor. -/
  | newConnMonAdapter
  /-- `m_adapter->lanConnectedRaw()` together with its answer. -/
  | lanConnectedRaw (answer : Bool)
  /-- `m_adapter->appProtocolConnectedRaw()` together with its answer. -/
  | appProtocolConnectedRaw (answer : Bool)
  /-- `adapter()->notifyLanConnected(b)`. -/
  | notifyLanConnected (isLanConnected : Bool)
  /-- `adapter()->notifyAppProtocolConnected(b)`. -/
  | notifyAppProtocolConnected (isAppProtocolConnected : Bool)
  /-- The trace line of `ConnMonState::entry`, with the values of `state()` and
  `prevState()` it prints. -/
  | trEntry (state prevState : ConnMonState)
  /-- `m_stableConnCheckTimer->startTimer(millis)`. -/
  | startTimer (millis : Nat)
  deriving DecidableEq, Repr

def cStatusPollIntervalMillis : Nat := 1000

def cStableCheckIntervalMillis : Nat := 2000

/-- The monitor: adapter pointer, current and previous state, and the history of calls
made on collaborators so far. -/
structure ConnMon where
  m_adapter : Option ConnMonAdapter
  m_state : ConnMonState
  m_prevState : ConnMonState
  calls : List Call
  deriving DecidableEq, Repr

/-- Append one call to the history. -/
def ConnMon.record (m : ConnMon) (c : Call) : ConnMon :=
  { m with calls := m.calls ++ [c] }

/-- A member call through `adapter()`: undefined (here `none`) on a null adapter. -/
def ConnMon.adapterCall (m : ConnMon) (c : Call) : Option ConnMon :=
  match m.m_adapter with
  | none => none
  | some _ => some (m.record c)

/-- `ConnMon::ConnMon(ConnMonAdapter* adapter)`. The object made by `new ConnMonAdapter()`
in the null branch is not stored anywhere: `m_adapter` keeps the value of the argument. -/
def ConnMon.new (adapter : Option ConnMonAdapter) : ConnMon :=
  let m : ConnMon :=
    { m_adapter := adapter
      m_state := ConnMonState.Unconnected
      m_prevState := ConnMonState.Unconnected
      calls := [Call.newTimer true cStatusPollIntervalMillis,
                Call.newTimer false cStableCheckIntervalMillis] }
  match m.m_adapter with
  | none => m.record Call.newConnMonAdapter
  | some _ => m

/-- `ConnMon::adapter()`. -/
def ConnMon.adapter (m : ConnMon) : Option ConnMonAdapter := m.m_adapter

/-- `ConnMon::state()`. -/
def ConnMon.state (m : ConnMon) : ConnMonState := m.m_state

/-- `ConnMon::prevState()`. -/
def ConnMon.prevState (m : ConnMon) : ConnMonState := m.m_prevState

/-- `ConnMon::isLanDeviceConnected()`: the answer and the monitor after the query. -/
def ConnMon.isLanDeviceConnected (m : ConnMon) (r : Raw) : Bool × ConnMon :=
  match m.m_adapter with
  | none => (false, m)
  | some _ => (r.lanRaw, m.record (Call.lanConnectedRaw r.lanRaw))

/-- `ConnMon::isAppProtocolLibConnected()`: the answer and the monitor after the query. -/
def ConnMon.isAppProtocolLibConnected (m : ConnMon) (r : Raw) : Bool × ConnMon :=
  match m.m_adapter with
  | none => (false, m)
  | some _ => (r.appRaw, m.record (Call.appProtocolConnectedRaw r.appRaw))

/-- `ConnMon::isLanConnected()`. -/
def ConnMon.isLanConnected (m : ConnMon) : Bool :=
  decide (ConnMonState.StableLanConnection = m.state)

/-- `ConnMon::isAppProtocolConnected()`. -/
def ConnMon.isAppProtocolConnected (m : ConnMon) : Bool :=
  decide (ConnMonState.AppProtocolConnected = m.state)

/-- `ConnMon::startStableLanConnCheckTimer()`. -/
def ConnMon.startStableLanConnCheckTimer (m : ConnMon) : ConnMon :=
  m.record (Call.startTimer cStableCheckIntervalMillis)

/-- `ConnMonState::entry`: the trace line, reached through `monitor->adapter()->trPort()`. -/
def ConnMonState.entry (monitor : ConnMon) : Option ConnMon :=
  monitor.adapterCall (Call.trEntry monitor.state monitor.prevState)

/-- `ConnMonState_Unconnected::entry`. -/
def ConnMonState_Unconnected.entry (monitor : ConnMon) : Option ConnMon :=
  (ConnMonState.entry monitor).bind fun m1 =>
  (m1.adapterCall (Call.notifyLanConnected false)).bind fun m2 =>
  m2.adapterCall (Call.notifyAppProtocolConnected false)

/-- `ConnMonState_LanConnected::entry`. -/
def ConnMonState_LanConnected.entry (monitor : ConnMon) : Option ConnMon :=
  (ConnMonState.entry monitor).bind fun m1 =>
  some m1.startStableLanConnCheckTimer

/-- `ConnMonState_StableLanConnection::entry`. -/
def ConnMonState_StableLanConnection.entry (monitor : ConnMon) : Option ConnMon :=
  (ConnMonState.entry monitor).bind fun m1 =>
  m1.adapterCall (Call.notifyLanConnected true)

/-- `ConnMonState_AppProtocolConnected::entry`. -/
def ConnMonState_AppProtocolConnected.entry (monitor : ConnMon) : Option ConnMon :=
  (ConnMonState.entry monitor).bind fun m1 =>
  m1.adapterCall (Call.notifyAppProtocolConnected true)

/-- Virtual dispatch of `newState->entry(monitor)`. -/
def ConnMonState.virtualEntry (s : ConnMonState) (monitor : ConnMon) : Option ConnMon :=
  match s with
  | ConnMonState.Unconnected => ConnMonState_Unconnected.entry monitor
  | ConnMonState.LanConnected => ConnMonState_LanConnected.entry monitor
  | ConnMonState.StableLanConnection => ConnMonState_StableLanConnection.entry monitor
  | ConnMonState.AppProtocolConnected => ConnMonState_AppProtocolConnected.entry monitor

/-- `ConnMon::changeState`. -/
def ConnMon.changeState (m : ConnMon) (newState : ConnMonState) : Option ConnMon :=
  let m1 : ConnMon := { m with m_prevState := m.m_state }
  let m2 : ConnMon := { m1 with m_state := newState }
  newState.virtualEntry m2

/-- Modelled from the spec: the body of the base-class member
`ConnMonState::timeExpired(ConnMon*)`, which lives in `ConnMon.h` and is not among the
sources. The spec: a stability-timer callback arriving in a state that does not expect it
"is a silent no-op". -/
def ConnMonState.timeExpired (monitor : ConnMon) : Option ConnMon :=
  some monitor

/-- Modelled from the spec: the body of the base-class member
`ConnMonState::evaluateState(ConnMon*, bool)`, which lives in `ConnMon.h` and is not among
the sources. The spec: "states that do not care about this input simply ignore the call
(default no-op)". -/
def ConnMonState.evaluateStateWithAppProtocol (monitor : ConnMon) (_appProtocolState : Bool) :
    Option ConnMon :=
  some monitor

/-- `ConnMonState_Unconnected::evaluateState(ConnMon*)`. -/
def ConnMonState_Unconnected.evaluateState (monitor : ConnMon) (r : Raw) : Option ConnMon :=
  let q := monitor.isLanDeviceConnected r
  if q.1 then q.2.changeState ConnMonState.LanConnected
  else some q.2

/-- `ConnMonState_LanConnected::evaluateState(ConnMon*)`. -/
def ConnMonState_LanConnected.evaluateState (monitor : ConnMon) (r : Raw) : Option ConnMon :=
  let q := monitor.isLanDeviceConnected r
  if !q.1 then q.2.changeState ConnMonState.Unconnected
  else some q.2

/-- `ConnMonState_LanConnected::timeExpired`. -/
def ConnMonState_LanConnected.timeExpired (monitor : ConnMon) (r : Raw) : Option ConnMon :=
  let q := monitor.isLanDeviceConnected r
  if q.1 then q.2.changeState ConnMonState.StableLanConnection
  else q.2.changeState ConnMonState.Unconnected

/-- `ConnMonState_StableLanConnection::evaluateState(ConnMon*)`. -/
def ConnMonState_StableLanConnection.evaluateState (monitor : ConnMon) (r : Raw) :
    Option ConnMon :=
  let q := monitor.isLanDeviceConnected r
  if q.1 then
    let q2 := q.2.isAppProtocolLibConnected r
    if q2.1 then q2.2.changeState ConnMonState.AppProtocolConnected
    else some q2.2
  else q.2.changeState ConnMonState.Unconnected

/-- `ConnMonState_StableLanConnection::evaluateState(ConnMon*, bool)`. -/
def ConnMonState_StableLanConnection.evaluateStateWithAppProtocol (monitor : ConnMon)
    (appProtocolState : Bool) : Option ConnMon :=
  if appProtocolState then monitor.changeState ConnMonState.AppProtocolConnected
  else some monitor

/-- `ConnMonState_AppProtocolConnected::evaluateState(ConnMon*)`. -/
def ConnMonState_AppProtocolConnected.evaluateState (monitor : ConnMon) (r : Raw) :
    Option ConnMon :=
  let q := monitor.isLanDeviceConnected r
  if q.1 then
    let q2 := q.2.isAppProtocolLibConnected r
    if !q2.1 then
      (q2.2.changeState ConnMonState.StableLanConnection).bind fun m1 =>
      m1.adapterCall (Call.notifyAppProtocolConnected false)
    else some q2.2
  else q.2.changeState ConnMonState.Unconnected

/-- `ConnMonState_AppProtocolConnected::evaluateState(ConnMon*, bool)`. -/
def ConnMonState_AppProtocolConnected.evaluateStateWithAppProtocol (monitor : ConnMon)
    (mqttState : Bool) : Option ConnMon :=
  if !mqttState then monitor.changeState ConnMonState.LanConnected
  else some monitor

/-- `ConnMon::evaluateState()`: virtual dispatch of `m_state->evaluateState(this)`. -/
def ConnMon.evaluateState (m : ConnMon) (r : Raw) : Option ConnMon :=
  match m.m_state with
  | ConnMonState.Unconnected => ConnMonState_Unconnected.evaluateState m r
  | ConnMonState.LanConnected => ConnMonState_LanConnected.evaluateState m r
  | ConnMonState.StableLanConnection => ConnMonState_StableLanConnection.evaluateState m r
  | ConnMonState.AppProtocolConnected => ConnMonState_AppProtocolConnected.evaluateState m r

/-- `ConnMon::setAppProtocolState(bool)`: virtual dispatch of
`m_state->evaluateState(this, appProtocolIsConnected)`; only two states override it. -/
def ConnMon.setAppProtocolState (m : ConnMon) (appProtocolIsConnected : Bool) :
    Option ConnMon :=
  match m.m_state with
  | ConnMonState.Unconnected =>
      ConnMonState.evaluateStateWithAppProtocol m appProtocolIsConnected
  | ConnMonState.LanConnected =>
      ConnMonState.evaluateStateWithAppProtocol m appProtocolIsConnected
  | ConnMonState.StableLanConnection =>
      ConnMonState_StableLanConnection.evaluateStateWithAppProtocol m appProtocolIsConnected
  | ConnMonState.AppProtocolConnected =>
      ConnMonState_AppProtocolConnected.evaluateStateWithAppProtocol m appProtocolIsConnected

/-- `StatusPollTimerAdapter::timeExpired()`: the poll tick. -/
def StatusPollTimerAdapter.timeExpired (m_monitor : ConnMon) (r : Raw) : Option ConnMon :=
  m_monitor.evaluateState r

/-- `StableCheckPollTimerAdapter::timeExpired()`: virtual dispatch of
`m_monitor->state()->timeExpired(m_monitor)`; only `LanConnected` overrides it. -/
def StableCheckPollTimerAdapter.timeExpired (m_monitor : ConnMon) (r : Raw) :
    Option ConnMon :=
  match m_monitor.state with
  | ConnMonState.Unconnected => ConnMonState.timeExpired m_monitor
  | ConnMonState.LanConnected => ConnMonState_LanConnected.timeExpired m_monitor r
  | ConnMonState.StableLanConnection => ConnMonState.timeExpired m_monitor
  | ConnMonState.AppProtocolConnected => ConnMonState.timeExpired m_monitor

/-- The three ways the outside world drives the monitor. -/
inductive Event where
  /-- The recurring status-poll timer fires. -/
  | statusPoll (r : Raw)
  /-- The one-shot stability-check timer fires. -/
  | stableCheckExpired (r : Raw)
  /-- The application calls `setAppProtocolState(b)`. -/
  | setAppProtocolState (appProtocolIsConnected : Bool)
  deriving DecidableEq, Repr

/-- Handle one event. -/
def ConnMon.handle (m : ConnMon) (e : Event) : Option ConnMon :=
  match e with
  | Event.statusPoll r => StatusPollTimerAdapter.timeExpired m r
  | Event.stableCheckExpired r => StableCheckPollTimerAdapter.timeExpired m r
  | Event.setAppProtocolState b => m.setAppProtocolState b

/-- Handle a sequence of events, one after the other. -/
def ConnMon.run (m : ConnMon) : List Event → Option ConnMon
  | [] => some m
  | e :: es => (m.handle e).bind fun m1 => m1.run es

/-- The values of the `notifyLanConnected` calls in a history, in order. -/
def lanNotifications : List Call → List Bool
  | [] => []
  | Call.notifyLanConnected b :: cs => b :: lanNotifications cs
  | _ :: cs => lanNotifications cs

/-- The values of the `notifyAppProtocolConnected` calls in a history, in order. -/
def appNotifications : List Call → List Bool
  | [] => []
  | Call.notifyAppProtocolConnected b :: cs => b :: appNotifications cs
  | _ :: cs => appNotifications cs

/-- The intervals of the `startTimer` calls in a history, in order. -/
def timerStarts : List Call → List Nat
  | [] => []
  | Call.startTimer ms :: cs => ms :: timerStarts cs
  | _ :: cs => timerStarts cs

/-- The (state, previous state) pairs of the entry trace lines in a history, in order:
one per entry action run. -/
def entriesRun : List Call → List (ConnMonState × ConnMonState)
  | [] => []
  | Call.trEntry s p :: cs => (s, p) :: entriesRun cs
  | _ :: cs => entriesRun cs

/-- The answers of the `lanConnectedRaw` queries in a history, in order. -/
def lanQueries : List Call → List Bool
  | [] => []
  | Call.lanConnectedRaw b :: cs => b :: lanQueries cs
  | _ :: cs => lanQueries cs

/-- Every value of the list differs from the one before it, the first from `status`. -/
def eachReportsChange (status : Bool) : List Bool → Bool
  | [] => true
  | b :: bs => (b != status) && eachReportsChange b bs

/-- The monitor in state `s` with an adapter and an empty history: the probe on which the
per-state behaviour of the handlers is read off. -/
def probe (s : ConnMonState) : ConnMon :=
  { m_adapter := some { ident := 0 }, m_state := s, m_prevState := s, calls := [] }

/-- The state the handlers leave the monitor in, for a monitor with an adapter. -/
def stateAfter (s : ConnMonState) (e : Event) : ConnMonState :=
  match (probe s).handle e with
  | some m => m.m_state
  | none => s

/-- The calls the handlers make, for a monitor with an adapter. -/
def callsDuring (s : ConnMonState) (e : Event) : List Call :=
  match (probe s).handle e with
  | some m => m.calls
  | none => []

/-- The calls made by the entry action of `s`, entered from `p`, for a monitor with an
adapter. -/
def entryCalls (s p : ConnMonState) : List Call :=
  match s.virtualEntry { m_adapter := some { ident := 0 }, m_state := s, m_prevState := p,
                         calls := [] } with
  | some m => m.calls
  | none => []

/-- Raw queries, as opposed to notifications, trace lines and timer calls. -/
def Call.isRawQuery : Call → Bool
  | Call.lanConnectedRaw _ => true
  | Call.appProtocolConnectedRaw _ => true
  | _ => false

/-- `ConnMonAdapter::lanConnectedRaw()` of the base adapter. `esp8266` tells whether the
source is compiled with `ESP8266` defined; `wifiIsConnected` is the answer of
`WiFi.isConnected()`, asked only in that case. -/
def ConnMonAdapter.lanConnectedRaw (_self : ConnMonAdapter) (esp8266 wifiIsConnected : Bool) :
    Bool :=
  let isLanConnected := false
  let isLanConnected := if esp8266 then wifiIsConnected else isLanConnected
  isLanConnected

/-- `ConnMonAdapter::appProtocolConnectedRaw()` of the base adapter. -/
def ConnMonAdapter.appProtocolConnectedRaw (_self : ConnMonAdapter) : Bool :=
  false

/-- Notification calls, as opposed to queries, trace lines and timer calls. -/
def Call.isNotification : Call → Bool
  | Call.notifyLanConnected _ => true
  | Call.notifyAppProtocolConnected _ => true
  | _ => false

/-- The notification calls of a history, in order. -/
def notifications (cs : List Call) : List Call :=
  cs.filter Call.isNotification

/-- The pairs (previous state, current state) a monitor can show after a transition. -/
def transitionPair (prev cur : ConnMonState) : Bool :=
  match cur with
  | ConnMonState.Unconnected => decide (prev ≠ ConnMonState.Unconnected)
  | ConnMonState.LanConnected =>
      decide (prev = ConnMonState.Unconnected ∨ prev = ConnMonState.AppProtocolConnected)
  | ConnMonState.StableLanConnection =>
      decide (prev = ConnMonState.LanConnected ∨ prev = ConnMonState.AppProtocolConnected)
  | ConnMonState.AppProtocolConnected => decide (prev = ConnMonState.StableLanConnection)

/-! ## Lemmas on single events and on runs -/

/-- For a monitor with an adapter, every handler returns; state, previous state and
history of the result are given by `stateAfter` and `callsDuring`. -/
theorem handle_of_adapter (a : ConnMonAdapter) (s p : ConnMonState) (cs : List Call)
    (e : Event) :
    ConnMon.handle { m_adapter := some a, m_state := s, m_prevState := p, calls := cs } e
      = some { m_adapter := some a, m_state := stateAfter s e,
               m_prevState := if stateAfter s e = s then p else s,
               calls := cs ++ callsDuring s e } := by
  cases s <;> rcases e with ⟨⟨_ | _, _ | _⟩⟩ | ⟨⟨_ | _, _ | _⟩⟩ | (_ | _) <;>
    simp [stateAfter, callsDuring, probe, ConnMon.handle, StatusPollTimerAdapter.timeExpired,
      StableCheckPollTimerAdapter.timeExpired, ConnMon.setAppProtocolState, ConnMon.evaluateState,
      ConnMonState_Unconnected.evaluateState, ConnMonState_LanConnected.evaluateState,
      ConnMonState_StableLanConnection.evaluateState, ConnMonState_AppProtocolConnected.evaluateState,
      ConnMonState_LanConnected.timeExpired, ConnMonState.timeExpired,
      ConnMonState.evaluateStateWithAppProtocol,
      ConnMonState_StableLanConnection.evaluateStateWithAppProtocol,
      ConnMonState_AppProtocolConnected.evaluateStateWithAppProtocol,
      ConnMon.changeState, ConnMonState.virtualEntry, ConnMonState.entry,
      ConnMonState_Unconnected.entry, ConnMonState_LanConnected.entry,
      ConnMonState_StableLanConnection.entry, ConnMonState_AppProtocolConnected.entry,
      ConnMon.adapterCall, ConnMon.record, ConnMon.isLanDeviceConnected,
      ConnMon.isAppProtocolLibConnected, ConnMon.startStableLanConnCheckTimer,
      ConnMon.state, ConnMon.prevState]

/-- An event after which the state is the same and during which no call is made leaves the
monitor as it was. -/
theorem handle_unchanged (a : ConnMonAdapter) (s p : ConnMonState) (cs : List Call)
    (e : Event) (h1 : stateAfter s e = s) (h2 : callsDuring s e = []) :
    ConnMon.handle { m_adapter := some a, m_state := s, m_prevState := p, calls := cs } e
      = some { m_adapter := some a, m_state := s, m_prevState := p, calls := cs } := by
  rw [handle_of_adapter]
  simp [h1, h2]

/-- With a null adapter the handlers of `Unconnected` change nothing. -/
theorem handle_null_unconnected (p : ConnMonState) (cs : List Call) (e : Event) :
    ConnMon.handle { m_adapter := none, m_state := ConnMonState.Unconnected,
                     m_prevState := p, calls := cs } e
      = some { m_adapter := none, m_state := ConnMonState.Unconnected,
               m_prevState := p, calls := cs } := by
  rcases e with r | r | b <;>
    simp [ConnMon.handle, StatusPollTimerAdapter.timeExpired,
      StableCheckPollTimerAdapter.timeExpired, ConnMon.setAppProtocolState,
      ConnMon.evaluateState, ConnMonState_Unconnected.evaluateState, ConnMonState.timeExpired,
      ConnMonState.evaluateStateWithAppProtocol, ConnMon.isLanDeviceConnected, ConnMon.state]

/-- A run over a concatenation is the run over the first part followed by the run over the
second. -/
theorem run_append (m : ConnMon) (es fs : List Event) :
    m.run (es ++ fs) = (m.run es).bind fun m1 => m1.run fs := by
  induction es generalizing m with
  | nil => simp [ConnMon.run]
  | cons e es ih =>
    simp only [List.cons_append, ConnMon.run]
    cases h : m.handle e with
    | none => simp
    | some m1 => simp [ih]

/-- The form of `handle_of_adapter` for a monitor given as a whole. -/
theorem handle_eq (m : ConnMon) (a : ConnMonAdapter) (e : Event) (ha : m.m_adapter = some a) :
    m.handle e
      = some { m_adapter := some a, m_state := stateAfter m.m_state e,
               m_prevState := if stateAfter m.m_state e = m.m_state then m.m_prevState
                              else m.m_state,
               calls := m.calls ++ callsDuring m.m_state e } := by
  rcases m with ⟨_, s, p, cs⟩
  simp only at ha
  subst ha
  exact handle_of_adapter a s p cs e

/-- A monitor with an adapter handles every sequence of events, and keeps its adapter. -/
theorem run_of_adapter (a : ConnMonAdapter) (es : List Event) :
    ∀ m : ConnMon, m.m_adapter = some a →
      ∃ m2, m.run es = some m2 ∧ m2.m_adapter = some a := by
  induction es with
  | nil => intro m ha; exact ⟨m, rfl, ha⟩
  | cons e es ih =>
    intro m ha
    obtain ⟨m2, h2, ha2⟩ := ih _ (rfl : (ConnMon.mk (some a) (stateAfter m.m_state e)
      (if stateAfter m.m_state e = m.m_state then m.m_prevState else m.m_state)
      (m.calls ++ callsDuring m.m_state e)).m_adapter = some a)
    exact ⟨m2, by simp [ConnMon.run, handle_eq m a e ha, h2], ha2⟩

/-- From `Unconnected` and `LanConnected` the only event leading to `StableLanConnection` or
`AppProtocolConnected` is a stability-timer expiry in `LanConnected` with the link up. -/
theorem stable_entered_by_expiry (s : ConnMonState) (e : Event)
    (hs : s = ConnMonState.Unconnected ∨ s = ConnMonState.LanConnected)
    (h : stateAfter s e = ConnMonState.StableLanConnection ∨
         stateAfter s e = ConnMonState.AppProtocolConnected) :
    s = ConnMonState.LanConnected ∧
      ∃ r, e = Event.stableCheckExpired r ∧ r.lanRaw = true := by
  cases s <;> rcases e with ⟨⟨_ | _, _ | _⟩⟩ | ⟨⟨_ | _, _ | _⟩⟩ | (_ | _) <;>
    first
    | exact ⟨rfl, _, rfl, rfl⟩
    | (exfalso; revert h hs; decide)

/-- Starting in `Unconnected` or `LanConnected`, a run ends in `StableLanConnection` or
`AppProtocolConnected` only if it contains a stability-timer expiry that was handled in
`LanConnected` with the link up. -/
theorem stable_needs_expiry (a : ConnMonAdapter) (es : List Event) :
    ∀ m : ConnMon, m.m_adapter = some a →
      (m.m_state = ConnMonState.Unconnected ∨ m.m_state = ConnMonState.LanConnected) →
      ∃ m2, m.run es = some m2 ∧
        (m2.m_state = ConnMonState.StableLanConnection ∨
           m2.m_state = ConnMonState.AppProtocolConnected →
          ∃ pre r post mp, es = pre ++ Event.stableCheckExpired r :: post ∧
            r.lanRaw = true ∧ m.run pre = some mp ∧
            mp.m_state = ConnMonState.LanConnected) := by
  induction es with
  | nil =>
    intro m _ hs
    refine ⟨m, rfl, fun h => ?_⟩
    rcases hs with hs | hs <;> rcases h with h | h <;> rw [hs] at h <;> cases h
  | cons e es ih =>
    intro m ha hs
    have he := handle_eq m a e ha
    by_cases hn : stateAfter m.m_state e = ConnMonState.StableLanConnection ∨
        stateAfter m.m_state e = ConnMonState.AppProtocolConnected
    · obtain ⟨hl, r, hr, hup⟩ := stable_entered_by_expiry _ _ hs hn
      obtain ⟨m2, h2, _⟩ := run_of_adapter a es _
        (rfl : (ConnMon.mk (some a) (stateAfter m.m_state e)
          (if stateAfter m.m_state e = m.m_state then m.m_prevState else m.m_state)
          (m.calls ++ callsDuring m.m_state e)).m_adapter = some a)
      refine ⟨m2, by simp [ConnMon.run, he, h2], fun _ => ?_⟩
      exact ⟨[], r, es, m, by simp [hr], hup, rfl, hl⟩
    · have hs1 : stateAfter m.m_state e = ConnMonState.Unconnected ∨
          stateAfter m.m_state e = ConnMonState.LanConnected := by
        cases hv : stateAfter m.m_state e <;> simp [hv] at hn ⊢
      obtain ⟨m2, h2, hsplit⟩ := ih
        (ConnMon.mk (some a) (stateAfter m.m_state e)
          (if stateAfter m.m_state e = m.m_state then m.m_prevState else m.m_state)
          (m.calls ++ callsDuring m.m_state e)) rfl hs1
      refine ⟨m2, by simp [ConnMon.run, he, h2], fun h => ?_⟩
      obtain ⟨pre, r, post, mp, hes, hup, hpre, hmp⟩ := hsplit h
      exact ⟨e :: pre, r, post, mp, by simp [hes], hup, by simp [ConnMon.run, he, hpre], hmp⟩

/-- A fresh monitor handles every sequence of events and keeps the adapter pointer it was
constructed with; with a null adapter it never changes at all. -/
theorem run_new (adapter : Option ConnMonAdapter) (es : List Event) :
    ∃ m, (ConnMon.new adapter).run es = some m ∧ m.m_adapter = adapter ∧
      (adapter = none → m = ConnMon.new none) := by
  cases adapter with
  | some a =>
    obtain ⟨m, hm, ha⟩ := run_of_adapter a es (ConnMon.new (some a)) rfl
    exact ⟨m, hm, ha, fun h => by cases h⟩
  | none =>
    refine ⟨ConnMon.new none, ?_, rfl, fun _ => rfl⟩
    induction es with
    | nil => rfl
    | cons e es ih =>
      have h : (ConnMon.new none).handle e = some (ConnMon.new none) :=
        handle_null_unconnected _ _ e
      simp [ConnMon.run, h, ih]

/-- An event that leaves the state as it is runs no entry action, emits no notification and
starts no timer. -/
theorem same_state_quiet (s : ConnMonState) (e : Event) (h : stateAfter s e = s) :
    entriesRun (callsDuring s e) = [] ∧ lanNotifications (callsDuring s e) = [] ∧
    appNotifications (callsDuring s e) = [] ∧ timerStarts (callsDuring s e) = [] := by
  cases s <;> rcases e with ⟨⟨_ | _, _ | _⟩⟩ | ⟨⟨_ | _, _ | _⟩⟩ | (_ | _) <;>
    first
    | (exfalso; revert h; decide)
    | decide

/-- An event that changes the state makes raw queries, then the calls of the entry action
of the new state, then calls that are no entry trace lines. -/
theorem change_runs_entry_once (s : ConnMonState) (e : Event) (h : stateAfter s e ≠ s) :
    entriesRun (callsDuring s e) = [(stateAfter s e, s)] ∧
    callsDuring s e
      = (callsDuring s e).takeWhile Call.isRawQuery ++ entryCalls (stateAfter s e) s ++
        (callsDuring s e).drop (((callsDuring s e).takeWhile Call.isRawQuery).length +
          (entryCalls (stateAfter s e) s).length) ∧
    entriesRun ((callsDuring s e).takeWhile Call.isRawQuery) = [] ∧
    entriesRun ((callsDuring s e).drop (((callsDuring s e).takeWhile Call.isRawQuery).length +
          (entryCalls (stateAfter s e) s).length)) = [] := by
  cases s <;> rcases e with ⟨⟨_ | _, _ | _⟩⟩ | ⟨⟨_ | _, _ | _⟩⟩ | (_ | _) <;>
    first
    | (exfalso; revert h; decide)
    | decide

/-- The `notifyLanConnected` calls of one event: one call on a change into `Unconnected` or
`StableLanConnection`, with value "the new state is `StableLanConnection`"; none otherwise. -/
theorem lanNotifications_callsDuring (s : ConnMonState) (e : Event) :
    lanNotifications (callsDuring s e)
      = if stateAfter s e ≠ s ∧ (stateAfter s e = ConnMonState.Unconnected ∨
            stateAfter s e = ConnMonState.StableLanConnection)
        then [decide (ConnMonState.StableLanConnection = stateAfter s e)] else [] := by
  cases s <;> rcases e with ⟨⟨_ | _, _ | _⟩⟩ | ⟨⟨_ | _, _ | _⟩⟩ | (_ | _) <;> decide

/-- The `notifyAppProtocolConnected` calls of one event. -/
theorem appNotifications_callsDuring (s : ConnMonState) (e : Event) :
    appNotifications (callsDuring s e)
      = if stateAfter s e ≠ s ∧ (stateAfter s e = ConnMonState.AppProtocolConnected ∨
            stateAfter s e = ConnMonState.Unconnected ∨
            (s = ConnMonState.AppProtocolConnected ∧
              stateAfter s e = ConnMonState.StableLanConnection))
        then [decide (ConnMonState.AppProtocolConnected = stateAfter s e)] else [] := by
  cases s <;> rcases e with ⟨⟨_ | _, _ | _⟩⟩ | ⟨⟨_ | _, _ | _⟩⟩ | (_ | _) <;> decide

/-- The raw link answers of a concatenated history. -/
theorem lanQueries_append (xs ys : List Call) :
    lanQueries (xs ++ ys) = lanQueries xs ++ lanQueries ys := by
  induction xs with
  | nil => rfl
  | cons c xs ih => cases c <;> simp [lanQueries, ih]

/-- From `Unconnected` an event leads to `Unconnected` or to `LanConnected`. -/
theorem from_unconnected (e : Event) :
    stateAfter ConnMonState.Unconnected e = ConnMonState.Unconnected ∨
    stateAfter ConnMonState.Unconnected e = ConnMonState.LanConnected := by
  rcases e with ⟨⟨_ | _, _ | _⟩⟩ | ⟨⟨_ | _, _ | _⟩⟩ | (_ | _) <;> decide

/-- An event that does not end in `Unconnected` got the answer true to every raw link query
it made. -/
theorem queries_true_unless_unconnected (s : ConnMonState) (e : Event)
    (h : stateAfter s e ≠ ConnMonState.Unconnected) :
    ∀ b ∈ lanQueries (callsDuring s e), b = true := by
  cases s <;> rcases e with ⟨⟨_ | _, _ | _⟩⟩ | ⟨⟨_ | _, _ | _⟩⟩ | (_ | _) <;>
    first
    | decide
    | (exfalso; revert h; decide)

/-- `LanConnected` is left for a state other than `Unconnected` only by a stability-timer
expiry. -/
theorem leaves_lan_by_expiry (e : Event)
    (h1 : stateAfter ConnMonState.LanConnected e ≠ ConnMonState.LanConnected)
    (h2 : stateAfter ConnMonState.LanConnected e ≠ ConnMonState.Unconnected) :
    ∃ r, e = Event.stableCheckExpired r := by
  rcases e with ⟨⟨_ | _, _ | _⟩⟩ | ⟨⟨_ | _, _ | _⟩⟩ | (_ | _) <;>
    first
    | exact ⟨_, rfl⟩
    | (exfalso; revert h1 h2; decide)

/-- In `LanConnected`, a poll tick or a stability-timer expiry whose raw link query answers
false ends in `Unconnected`, and the query is made. -/
theorem lan_link_down (r : Raw) (hr : r.lanRaw = false) :
    stateAfter ConnMonState.LanConnected (Event.statusPoll r) = ConnMonState.Unconnected ∧
    stateAfter ConnMonState.LanConnected (Event.stableCheckExpired r)
      = ConnMonState.Unconnected ∧
    lanQueries (callsDuring ConnMonState.LanConnected (Event.statusPoll r)) = [false] ∧
    lanQueries (callsDuring ConnMonState.LanConnected (Event.stableCheckExpired r))
      = [false] := by
  rcases r with ⟨l, q⟩
  simp only at hr
  subst hr
  cases q <;> decide

/-- The invariant behind C1. After any run of a fresh monitor: the adapter pointer is the
one given at construction; with a null adapter nothing has changed; and when the state is
not `Unconnected`, the run splits at the last entry into `LanConnected`, all raw link
queries since have answered true, and a stability-timer expiry lies after the entry once
the state is no longer `LanConnected`. -/
theorem link_up_since_entry (adapter : Option ConnMonAdapter) (es : List Event) :
    ∃ m, (ConnMon.new adapter).run es = some m ∧ m.m_adapter = adapter ∧
      (adapter = none → m = ConnMon.new none) ∧
      (m.m_state ≠ ConnMonState.Unconnected →
        ∃ pre e post m0 m1 since, es = pre ++ e :: post ∧
          (ConnMon.new adapter).run pre = some m0 ∧
          m0.m_state ≠ ConnMonState.LanConnected ∧
          m0.handle e = some m1 ∧ m1.m_state = ConnMonState.LanConnected ∧
          m.calls = m1.calls ++ since ∧ (∀ b ∈ lanQueries since, b = true) ∧
          (m.m_state ≠ ConnMonState.LanConnected →
            ∃ r, Event.stableCheckExpired r ∈ post)) := by
  induction es using List.reverseRecOn with
  | nil =>
    refine ⟨ConnMon.new adapter, rfl, ?_, fun h => by rw [h], fun h => ?_⟩
    · cases adapter <;> rfl
    · exact absurd (by cases adapter <;> rfl) h
  | append_singleton es e1 ih =>
    obtain ⟨m, hm, ha, hnull, hinv⟩ := ih
    cases adapter with
    | none =>
      have hfresh := hnull rfl
      subst hfresh
      have he : (ConnMon.new none).handle e1 = some (ConnMon.new none) :=
        handle_null_unconnected _ _ e1
      refine ⟨ConnMon.new none, by simp [run_append, hm, ConnMon.run, he], rfl,
        fun _ => rfl, fun h => absurd rfl h⟩
    | some a =>
      have he := handle_eq m a e1 ha
      refine ⟨{ m_adapter := some a, m_state := stateAfter m.m_state e1,
                m_prevState := if stateAfter m.m_state e1 = m.m_state then m.m_prevState
                               else m.m_state,
                calls := m.calls ++ callsDuring m.m_state e1 },
        by simp only [run_append, hm, ConnMon.run, he, Option.some_bind], rfl,
        (fun h => by cases h), fun hne => ?_⟩
      simp only at hne
      by_cases hent : m.m_state ≠ ConnMonState.LanConnected ∧
          stateAfter m.m_state e1 = ConnMonState.LanConnected
      · exact ⟨es, e1, [], m, _, [], rfl, hm, hent.1, he, hent.2, by simp,
          by simp [lanQueries], fun h => absurd hent.2 h⟩
      · have hsu : m.m_state ≠ ConnMonState.Unconnected := by
          intro hu
          rw [hu] at hent hne
          rcases from_unconnected e1 with h | h
          · exact hne h
          · exact hent ⟨by decide, h⟩
        obtain ⟨pre, e, post, m0, m1, since, hes, hpre, h0, h01, h1, hcalls, hq, htimer⟩ :=
          hinv hsu
        refine ⟨pre, e, post ++ [e1], m0, m1, since ++ callsDuring m.m_state e1,
          by simp [hes], hpre, h0, h01, h1, by simp [hcalls], ?_, ?_⟩
        · intro b hb
          rw [lanQueries_append] at hb
          rcases List.mem_append.1 hb with hb | hb
          · exact hq b hb
          · exact queries_true_unless_unconnected _ _ hne b hb
        · intro hnl
          simp only at hnl
          by_cases hl : m.m_state = ConnMonState.LanConnected
          · rw [hl] at hnl hne
            obtain ⟨r, hr⟩ := leaves_lan_by_expiry e1 hnl hne
            exact ⟨r, by simp [hr]⟩
          · obtain ⟨r, hr⟩ := htimer hl
            exact ⟨r, by simp [hr]⟩

/-- The timer starts of a concatenated history. -/
theorem timerStarts_append (xs ys : List Call) :
    timerStarts (xs ++ ys) = timerStarts xs ++ timerStarts ys := by
  induction xs with
  | nil => rfl
  | cons c xs ih => cases c <;> simp [timerStarts, ih]

/-- The entry trace lines of a concatenated history. -/
theorem entriesRun_append (xs ys : List Call) :
    entriesRun (xs ++ ys) = entriesRun xs ++ entriesRun ys := by
  induction xs with
  | nil => rfl
  | cons c xs ih => cases c <;> simp [entriesRun, ih]

/-- In `LanConnected`, polls that all see the link up are handled, keep state, previous
state and adapter, and start no timer. -/
theorem polls_link_up_keep_lan (a : ConnMonAdapter) (rs : List Raw)
    (hup : ∀ r ∈ rs, r.lanRaw = true) :
    ∀ m : ConnMon, m.m_adapter = some a → m.m_state = ConnMonState.LanConnected →
      ∃ m2, m.run (rs.map Event.statusPoll) = some m2 ∧ m2.m_adapter = some a ∧
        m2.m_state = ConnMonState.LanConnected ∧ m2.m_prevState = m.m_prevState ∧
        timerStarts m2.calls = timerStarts m.calls := by
  induction rs with
  | nil => intro m ha hs; exact ⟨m, rfl, ha, hs, rfl, rfl⟩
  | cons r rs ih =>
    intro m ha hs
    rcases m with ⟨_, s, p, cs⟩
    simp only at ha hs
    subst ha hs
    rcases r with ⟨l, q⟩
    have hl : l = true := hup ⟨l, q⟩ (by simp)
    subst hl
    have he : ConnMon.handle
        { m_adapter := some a, m_state := ConnMonState.LanConnected, m_prevState := p,
          calls := cs } (Event.statusPoll { lanRaw := true, appRaw := q })
        = some { m_adapter := some a, m_state := ConnMonState.LanConnected,
                 m_prevState := p, calls := cs ++ [Call.lanConnectedRaw true] } := by
      cases q <;> exact (handle_of_adapter _ _ _ _ _).trans rfl
    obtain ⟨m2, h2, ha2, hs2, hp2, ht2⟩ := ih (fun r hr => hup r (by simp [hr]))
      { m_adapter := some a, m_state := ConnMonState.LanConnected, m_prevState := p,
        calls := cs ++ [Call.lanConnectedRaw true] } rfl rfl
    refine ⟨m2, by simp [ConnMon.run, he, h2], ha2, hs2, hp2, ?_⟩
    rw [ht2, timerStarts_append]
    simp [timerStarts]

/-- The timer starts of one event: one start with the stability interval on a change into
`LanConnected`, none otherwise. -/
theorem timerStarts_callsDuring (s : ConnMonState) (e : Event) :
    timerStarts (callsDuring s e)
      = if stateAfter s e ≠ s ∧ stateAfter s e = ConnMonState.LanConnected
        then [cStableCheckIntervalMillis] else [] := by
  cases s <;> rcases e with ⟨⟨_ | _, _ | _⟩⟩ | ⟨⟨_ | _, _ | _⟩⟩ | (_ | _) <;> decide

/-- The events that change the state into `LanConnected`. -/
theorem lan_entered_iff (s : ConnMonState) (e : Event) :
    (stateAfter s e ≠ s ∧ stateAfter s e = ConnMonState.LanConnected) ↔
      ((s = ConnMonState.Unconnected ∧ ∃ r, e = Event.statusPoll r ∧ r.lanRaw = true) ∨
       (s = ConnMonState.AppProtocolConnected ∧ e = Event.setAppProtocolState false)) := by
  constructor
  · intro h
    cases s <;> rcases e with ⟨⟨_ | _, _ | _⟩⟩ | ⟨⟨_ | _, _ | _⟩⟩ | (_ | _) <;>
      first
      | exact Or.inl ⟨rfl, _, rfl, rfl⟩
      | exact Or.inr ⟨rfl, rfl⟩
      | (exfalso; revert h; decide)
  · rintro (⟨rfl, ⟨l, q⟩, rfl, hr⟩ | ⟨rfl, rfl⟩)
    · simp only at hr
      subst hr
      cases q <;> decide
    · decide

/-- An event that changes the state yields an admissible (previous, current) pair. -/
theorem transitionPair_of_change (s : ConnMonState) (e : Event) (h : stateAfter s e ≠ s) :
    transitionPair s (stateAfter s e) = true := by
  cases s <;> rcases e with ⟨⟨_ | _, _ | _⟩⟩ | ⟨⟨_ | _, _ | _⟩⟩ | (_ | _) <;>
    first
    | decide
    | (exfalso; revert h; decide)

/-- Induction over the configurations a fresh monitor can reach: a property that holds
after construction and is kept by every event handled with an adapter holds after every
run, and every run is handled. -/
theorem reachable_induction (P : ConnMon → Prop) (adapter : Option ConnMonAdapter)
    (h0 : P (ConnMon.new adapter))
    (hstep : ∀ (a : ConnMonAdapter) (s p : ConnMonState) (cs : List Call) (e : Event),
      P { m_adapter := some a, m_state := s, m_prevState := p, calls := cs } →
      P { m_adapter := some a, m_state := stateAfter s e,
          m_prevState := if stateAfter s e = s then p else s,
          calls := cs ++ callsDuring s e })
    (es : List Event) :
    ∃ m, (ConnMon.new adapter).run es = some m ∧ P m := by
  cases adapter with
  | none =>
    obtain ⟨m, hm, _, hnull⟩ := run_new none es
    have hfresh := hnull rfl
    subst hfresh
    exact ⟨_, hm, h0⟩
  | some a =>
    have aux : ∀ (es : List Event) (s p : ConnMonState) (cs : List Call),
        P { m_adapter := some a, m_state := s, m_prevState := p, calls := cs } →
        ∃ m, ConnMon.run { m_adapter := some a, m_state := s, m_prevState := p,
                           calls := cs } es = some m ∧ P m := by
      intro es
      induction es with
      | nil => intro s p cs h; exact ⟨_, rfl, h⟩
      | cons e es ih =>
        intro s p cs h
        obtain ⟨m, hm, hP⟩ := ih _ _ _ (hstep a s p cs e h)
        exact ⟨m, by simp only [ConnMon.run, handle_of_adapter, Option.some_bind, hm], hP⟩
    exact aux es _ _ _ h0

/-- The invariant behind C19 is kept by every event handled with an adapter. -/
theorem pairs_step (s p : ConnMonState) (cs : List Call) (e : Event)
    (h : (s = p → s = ConnMonState.Unconnected ∧ entriesRun cs = []) ∧
         (s ≠ p → transitionPair p s = true) ∧
         (∀ sp ∈ entriesRun cs, sp.1 ≠ sp.2)) :
    (stateAfter s e = (if stateAfter s e = s then p else s) →
        stateAfter s e = ConnMonState.Unconnected ∧
        entriesRun (cs ++ callsDuring s e) = []) ∧
    (stateAfter s e ≠ (if stateAfter s e = s then p else s) →
        transitionPair (if stateAfter s e = s then p else s) (stateAfter s e) = true) ∧
    (∀ sp ∈ entriesRun (cs ++ callsDuring s e), sp.1 ≠ sp.2) := by
  obtain ⟨h1, h2, h3⟩ := h
  by_cases hc : stateAfter s e = s
  · have hq := (same_state_quiet s e hc).1
    simp only [hc, if_true, entriesRun_append, hq, List.append_nil]
    exact ⟨h1, h2, h3⟩
  · have hq := (change_runs_entry_once s e hc).1
    simp only [hc, if_false, entriesRun_append, hq]
    refine ⟨fun h => h.elim, fun _ => transitionPair_of_change s e hc, ?_⟩
    intro sp hsp
    rcases List.mem_append.1 hsp with hsp | hsp
    · exact h3 sp hsp
    · rw [List.mem_singleton] at hsp
      rw [hsp]
      exact hc

/-! ## The claims -/

/-- C1: every run of a fresh monitor is handled. If it ends in `StableLanConnection` or
`AppProtocolConnected`, the run splits at an earlier event that entered `LanConnected` from
another state, a stability-timer expiry was handled after that entry, and every raw link
query made since that entry answered true. If it ends in `LanConnected`, a poll tick or a
stability-timer expiry whose raw link query answers false is handled, makes that query,
and ends in `Unconnected`. -/
theorem stable_only_after_confirmed_link (adapter : Option ConnMonAdapter)
    (es : List Event) :
    ∃ m, (ConnMon.new adapter).run es = some m ∧
      (m.m_state = ConnMonState.StableLanConnection ∨
         m.m_state = ConnMonState.AppProtocolConnected →
        ∃ pre e post m0 m1 since, es = pre ++ e :: post ∧
          (ConnMon.new adapter).run pre = some m0 ∧
          m0.m_state ≠ ConnMonState.LanConnected ∧
          m0.handle e = some m1 ∧ m1.m_state = ConnMonState.LanConnected ∧
          (∃ r, Event.stableCheckExpired r ∈ post) ∧
          m.calls = m1.calls ++ since ∧ ∀ b ∈ lanQueries since, b = true) ∧
      (m.m_state = ConnMonState.LanConnected →
        ∀ r : Raw, r.lanRaw = false →
          ∀ e : Event, e = Event.statusPoll r ∨ e = Event.stableCheckExpired r →
            ∃ m1 new, m.handle e = some m1 ∧ m1.calls = m.calls ++ new ∧
              lanQueries new = [false] ∧ m1.m_state = ConnMonState.Unconnected) := by
  obtain ⟨m, hm, ha, hnull, hinv⟩ := link_up_since_entry adapter es
  refine ⟨m, hm, fun h => ?_, fun hl r hr e he => ?_⟩
  · have hu : m.m_state ≠ ConnMonState.Unconnected := by
      rcases h with h | h <;> rw [h] <;> decide
    have hnl : m.m_state ≠ ConnMonState.LanConnected := by
      rcases h with h | h <;> rw [h] <;> decide
    obtain ⟨pre, e, post, m0, m1, since, hes, hpre, h0, h01, h1, hcalls, hq, htimer⟩ :=
      hinv hu
    exact ⟨pre, e, post, m0, m1, since, hes, hpre, h0, h01, h1, htimer hnl, hcalls, hq⟩
  · cases adapter with
    | none =>
      have hfresh := hnull rfl
      subst hfresh
      cases hl
    | some a =>
      obtain ⟨h1, h2, h3, h4⟩ := lan_link_down r hr
      refine ⟨_, callsDuring m.m_state e, handle_eq m a e ha, rfl, ?_, ?_⟩
      · rw [hl]
        rcases he with he | he <;> rw [he]
        · exact h3
        · exact h4
      · simp only
        rw [hl]
        rcases he with he | he <;> rw [he]
        · exact h1
        · exact h2

/-- Witness of C1: the run "poll with link up, expiry with link up, poll with link and
app-protocol up" ends in `AppProtocolConnected`, and splits at the first poll. -/
theorem stable_only_after_confirmed_link_witness :
    ∃ m pre e post m0 m1 since,
      (ConnMon.new (some { ident := 6 })).run
        [Event.statusPoll { lanRaw := true, appRaw := false },
         Event.stableCheckExpired { lanRaw := true, appRaw := false },
         Event.statusPoll { lanRaw := true, appRaw := true }] = some m ∧
      m.m_state = ConnMonState.AppProtocolConnected ∧
      [Event.statusPoll { lanRaw := true, appRaw := false },
         Event.stableCheckExpired { lanRaw := true, appRaw := false },
         Event.statusPoll { lanRaw := true, appRaw := true }] = pre ++ e :: post ∧
      (ConnMon.new (some { ident := 6 })).run pre = some m0 ∧
      m0.m_state ≠ ConnMonState.LanConnected ∧
      m0.handle e = some m1 ∧ m1.m_state = ConnMonState.LanConnected ∧
      (∃ r, Event.stableCheckExpired r ∈ post) ∧
      m.calls = m1.calls ++ since ∧ ∀ b ∈ lanQueries since, b = true := by
  obtain ⟨m, hm, h, _⟩ := stable_only_after_confirmed_link (some { ident := 6 })
    [Event.statusPoll { lanRaw := true, appRaw := false },
     Event.stableCheckExpired { lanRaw := true, appRaw := false },
     Event.statusPoll { lanRaw := true, appRaw := true }]
  have hs : m.m_state = ConnMonState.AppProtocolConnected := by
    have hm2 := hm
    rw [show (ConnMon.new (some { ident := 6 })).run
        [Event.statusPoll { lanRaw := true, appRaw := false },
         Event.stableCheckExpired { lanRaw := true, appRaw := false },
         Event.statusPoll { lanRaw := true, appRaw := true }] = some _ from rfl] at hm2
    cases hm2
    rfl
  obtain ⟨pre, e, post, m0, m1, since, h1, h2, h3, h4, h5, h6, h7, h8⟩ := h (Or.inr hs)
  exact ⟨m, pre, e, post, m0, m1, since, hm, hs, h1, h2, h3, h4, h5, h6, h7, h8⟩


/-- C2: a poll tick whose raw link query answers false leaves the monitor in `Unconnected`.
In `Unconnected` only the query is made: no `changeState`, no entry action, previous state
kept. In the other three states the monitor changes to `Unconnected`, the previous state
becomes the state left, and the entry action of `Unconnected` runs. -/
theorem poll_link_false_gives_unconnected (m : ConnMon) (a : ConnMonAdapter) (r : Raw)
    (ha : m.m_adapter = some a) (hr : r.lanRaw = false) :
    (m.m_state = ConnMonState.Unconnected →
      m.handle (Event.statusPoll r)
        = some { m with calls := m.calls ++ [Call.lanConnectedRaw false] }) ∧
    (m.m_state ≠ ConnMonState.Unconnected →
      m.handle (Event.statusPoll r)
        = some { m with
                 m_state := ConnMonState.Unconnected
                 m_prevState := m.m_state
                 calls := m.calls ++ [Call.lanConnectedRaw false,
                   Call.trEntry ConnMonState.Unconnected m.m_state,
                   Call.notifyLanConnected false,
                   Call.notifyAppProtocolConnected false] }) := by
  rcases m with ⟨_, s, p, cs⟩
  rcases r with ⟨l, q⟩
  simp only at ha hr
  subst ha hr
  rw [handle_of_adapter]
  refine ⟨fun h => ?_, fun h => ?_⟩ <;> cases s <;> cases q <;>
    first | rfl | cases h | exact absurd rfl h

/-- Witness of C2: the monitor in `StableLanConnection` polled with link false. -/
theorem poll_link_false_gives_unconnected_witness :
    ConnMon.handle { m_adapter := some { ident := 7 },
                     m_state := ConnMonState.StableLanConnection,
                     m_prevState := ConnMonState.LanConnected, calls := [] }
        (Event.statusPoll { lanRaw := false, appRaw := true })
      = some { m_adapter := some { ident := 7 }, m_state := ConnMonState.Unconnected,
               m_prevState := ConnMonState.StableLanConnection,
               calls := [Call.lanConnectedRaw false,
                 Call.trEntry ConnMonState.Unconnected ConnMonState.StableLanConnection,
                 Call.notifyLanConnected false, Call.notifyAppProtocolConnected false] } :=
  (poll_link_false_gives_unconnected
    { m_adapter := some { ident := 7 }, m_state := ConnMonState.StableLanConnection,
      m_prevState := ConnMonState.LanConnected, calls := [] }
    { ident := 7 } { lanRaw := false, appRaw := true } rfl rfl).2 (by decide)

/-- C3: in every state other than `LanConnected` a stability-timer expiry changes nothing at
all (state, previous state and history are kept, so no query, no notification and no timer
start). In particular the run "poll with link up, poll with link down, timer expiry" of a
fresh monitor is left in `Unconnected` by the late expiry. -/
theorem stale_timer_expiry_is_noop (m : ConnMon) (r : Raw)
    (hs : m.m_state ≠ ConnMonState.LanConnected) :
    m.handle (Event.stableCheckExpired r) = some m ∧
    ∀ (a : ConnMonAdapter) (q1 q2 : Bool), ∃ m1 m2,
      (ConnMon.new (some a)).handle (Event.statusPoll { lanRaw := true, appRaw := q1 })
        = some m1 ∧
      m1.m_state = ConnMonState.LanConnected ∧
      m1.handle (Event.statusPoll { lanRaw := false, appRaw := q2 }) = some m2 ∧
      m2.m_state = ConnMonState.Unconnected ∧
      m2.handle (Event.stableCheckExpired r) = some m2 := by
  constructor
  · rcases m with ⟨a, s, p, cs⟩
    cases s <;>
      first
      | exact absurd rfl hs
      | simp [ConnMon.handle, StableCheckPollTimerAdapter.timeExpired,
          ConnMonState.timeExpired, ConnMon.state]
  · intro a q1 q2
    simp only [ConnMon.new, handle_of_adapter]
    refine ⟨_, _, rfl, ?_, rfl, ?_, ?_⟩
    · cases q1 <;> rfl
    · cases q1 <;> cases q2 <;> rfl
    · cases q1 <;> cases q2 <;> rfl

/-- Witness of C3: an expiry arriving in `AppProtocolConnected`. -/
theorem stale_timer_expiry_is_noop_witness :
    ConnMon.handle { m_adapter := some { ident := 1 },
                     m_state := ConnMonState.AppProtocolConnected,
                     m_prevState := ConnMonState.StableLanConnection, calls := [] }
        (Event.stableCheckExpired { lanRaw := false, appRaw := false })
      = some { m_adapter := some { ident := 1 },
               m_state := ConnMonState.AppProtocolConnected,
               m_prevState := ConnMonState.StableLanConnection, calls := [] } :=
  (stale_timer_expiry_is_noop
    { m_adapter := some { ident := 1 }, m_state := ConnMonState.AppProtocolConnected,
      m_prevState := ConnMonState.StableLanConnection, calls := [] }
    { lanRaw := false, appRaw := false } (by decide)).1

/-- C4: `setAppProtocolState(true)` in `StableLanConnection` changes to
`AppProtocolConnected` with previous state `StableLanConnection`, running the entry action
once (one trace line, one `notifyAppProtocolConnected(true)`); in the other three states it
changes nothing at all. -/
theorem setAppProtocolState_true_effect (m : ConnMon) (a : ConnMonAdapter)
    (ha : m.m_adapter = some a) :
    (m.m_state = ConnMonState.StableLanConnection →
      m.handle (Event.setAppProtocolState true)
        = some { m with
                 m_state := ConnMonState.AppProtocolConnected
                 m_prevState := ConnMonState.StableLanConnection
                 calls := m.calls ++
                   [Call.trEntry ConnMonState.AppProtocolConnected
                      ConnMonState.StableLanConnection,
                    Call.notifyAppProtocolConnected true] }) ∧
    (m.m_state ≠ ConnMonState.StableLanConnection →
      m.handle (Event.setAppProtocolState true) = some m) := by
  rcases m with ⟨_, s, p, cs⟩
  simp only at ha
  subst ha
  refine ⟨fun h => ?_, fun h => ?_⟩ <;> cases s <;>
    first
    | exact absurd rfl h
    | exact handle_unchanged _ _ _ _ _ rfl rfl
    | exact (handle_of_adapter _ _ _ _ _).trans rfl
    | cases h

/-- Witness of C4: the call made in `StableLanConnection`. -/
theorem setAppProtocolState_true_effect_witness :
    ConnMon.handle { m_adapter := some { ident := 2 },
                     m_state := ConnMonState.StableLanConnection,
                     m_prevState := ConnMonState.LanConnected, calls := [] }
        (Event.setAppProtocolState true)
      = some { m_adapter := some { ident := 2 },
               m_state := ConnMonState.AppProtocolConnected,
               m_prevState := ConnMonState.StableLanConnection,
               calls := [Call.trEntry ConnMonState.AppProtocolConnected
                           ConnMonState.StableLanConnection,
                         Call.notifyAppProtocolConnected true] } :=
  (setAppProtocolState_true_effect
    { m_adapter := some { ident := 2 }, m_state := ConnMonState.StableLanConnection,
      m_prevState := ConnMonState.LanConnected, calls := [] }
    { ident := 2 } rfl).1 rfl

/-- C5: `setAppProtocolState(false)` in `AppProtocolConnected` changes to `LanConnected`
(not to `StableLanConnection`) with previous state `AppProtocolConnected`, and the entry
action of `LanConnected` starts the stability timer. From there every run is handled, and
one that ends in `StableLanConnection` contains a later stability-timer expiry which was
handled in `LanConnected` with the link up. -/
theorem setAppProtocolState_false_rearms (m : ConnMon) (a : ConnMonAdapter)
    (ha : m.m_adapter = some a) (hs : m.m_state = ConnMonState.AppProtocolConnected) :
    ∃ m1, m.handle (Event.setAppProtocolState false) = some m1 ∧
      m1 = { m with
             m_state := ConnMonState.LanConnected
             m_prevState := ConnMonState.AppProtocolConnected
             calls := m.calls ++
               [Call.trEntry ConnMonState.LanConnected ConnMonState.AppProtocolConnected,
                Call.startTimer cStableCheckIntervalMillis] } ∧
      ∀ es : List Event, ∃ m2, m1.run es = some m2 ∧
        (m2.m_state = ConnMonState.StableLanConnection →
          ∃ pre r post mp, es = pre ++ Event.stableCheckExpired r :: post ∧
            r.lanRaw = true ∧ m1.run pre = some mp ∧
            mp.m_state = ConnMonState.LanConnected) := by
  rcases m with ⟨_, s, p, cs⟩
  simp only at ha hs
  subst ha hs
  refine ⟨_, (handle_of_adapter _ _ _ _ _).trans rfl, rfl, fun es => ?_⟩
  obtain ⟨m2, h2, hsplit⟩ := stable_needs_expiry a es
    { m_adapter := some a, m_state := ConnMonState.LanConnected,
      m_prevState := ConnMonState.AppProtocolConnected,
      calls := cs ++ [Call.trEntry ConnMonState.LanConnected
        ConnMonState.AppProtocolConnected, Call.startTimer cStableCheckIntervalMillis] }
    rfl (Or.inr rfl)
  exact ⟨m2, h2, fun h => hsplit (Or.inl h)⟩

/-- Witness of C5: the call made in `AppProtocolConnected`, followed by an expiry with the
link up. -/
theorem setAppProtocolState_false_rearms_witness :
    ∃ m1, ConnMon.handle { m_adapter := some { ident := 3 },
                           m_state := ConnMonState.AppProtocolConnected,
                           m_prevState := ConnMonState.StableLanConnection, calls := [] }
            (Event.setAppProtocolState false) = some m1 ∧
      m1 = { m_adapter := some { ident := 3 }, m_state := ConnMonState.LanConnected,
             m_prevState := ConnMonState.AppProtocolConnected,
             calls := [Call.trEntry ConnMonState.LanConnected
                         ConnMonState.AppProtocolConnected,
                       Call.startTimer 2000] } ∧
      m1.run [Event.stableCheckExpired { lanRaw := true, appRaw := false }]
        = some { m_adapter := some { ident := 3 },
                 m_state := ConnMonState.StableLanConnection,
                 m_prevState := ConnMonState.LanConnected,
                 calls := [Call.trEntry ConnMonState.LanConnected
                             ConnMonState.AppProtocolConnected,
                           Call.startTimer 2000, Call.lanConnectedRaw true,
                           Call.trEntry ConnMonState.StableLanConnection
                             ConnMonState.LanConnected,
                           Call.notifyLanConnected true] } := by
  obtain ⟨m1, h1, h2, _⟩ := setAppProtocolState_false_rearms
    { m_adapter := some { ident := 3 }, m_state := ConnMonState.AppProtocolConnected,
      m_prevState := ConnMonState.StableLanConnection, calls := [] } { ident := 3 } rfl rfl
  refine ⟨m1, h1, h2, ?_⟩
  rw [h2]
  decide

/-- C6 as stated fails: a fresh monitor polled with the link up and then with the link down
emits `notifyLanConnected(false)` as its first link notification, which repeats the initial
status false. -/
theorem lan_notification_repeats_status :
    ∃ m, (ConnMon.new (some { ident := 0 })).run
        [Event.statusPoll { lanRaw := true, appRaw := false },
         Event.statusPoll { lanRaw := false, appRaw := false }] = some m ∧
      lanNotifications m.calls = [false] ∧
      eachReportsChange false (lanNotifications m.calls) = false := by
  refine ⟨_, rfl, ?_, ?_⟩ <;> decide

/-- C6 amended: in every configuration a fresh monitor can reach, every event is handled,
and it emits `notifyLanConnected` exactly when it changes the state into `Unconnected` or
into `StableLanConnection`: then once, with the value `isLanConnected()` has afterwards. -/
theorem lan_notification_on_state_entry (adapter : Option ConnMonAdapter)
    (es : List Event) :
    ∃ m, (ConnMon.new adapter).run es = some m ∧
      ∀ e : Event, ∃ m1 new, m.handle e = some m1 ∧ m1.calls = m.calls ++ new ∧
        lanNotifications new
          = if m1.m_state ≠ m.m_state ∧ (m1.m_state = ConnMonState.Unconnected ∨
                m1.m_state = ConnMonState.StableLanConnection)
            then [m1.isLanConnected] else [] := by
  obtain ⟨m, hm, ha, hnull⟩ := run_new adapter es
  refine ⟨m, hm, fun e => ?_⟩
  cases adapter with
  | none =>
    have hfresh := hnull rfl
    subst hfresh
    exact ⟨ConnMon.new none, [], handle_null_unconnected _ _ e, by simp, rfl⟩
  | some a =>
    exact ⟨_, callsDuring m.m_state e, handle_eq m a e ha, rfl,
      lanNotifications_callsDuring m.m_state e⟩

/-- C7 as stated fails: a fresh monitor polled with the link up and then with the link down
emits `notifyAppProtocolConnected(false)` as its first app-protocol notification, which
repeats the initial status false. -/
theorem app_notification_repeats_status :
    ∃ m, (ConnMon.new (some { ident := 0 })).run
        [Event.statusPoll { lanRaw := true, appRaw := false },
         Event.statusPoll { lanRaw := false, appRaw := false }] = some m ∧
      appNotifications m.calls = [false] ∧
      eachReportsChange false (appNotifications m.calls) = false := by
  refine ⟨_, rfl, ?_, ?_⟩ <;> decide

/-- C7 amended: in every configuration a fresh monitor can reach, every event other than
`setAppProtocolState(false)` in `AppProtocolConnected` is handled, and it emits
`notifyAppProtocolConnected` exactly when it changes the state into `AppProtocolConnected`
(value true), into `Unconnected` (value false), or from `AppProtocolConnected` into
`StableLanConnection` (value false): then once, with the value `isAppProtocolConnected()`
has afterwards. -/
theorem app_notification_on_state_entry (adapter : Option ConnMonAdapter)
    (es : List Event) :
    ∃ m, (ConnMon.new adapter).run es = some m ∧
      ∀ e : Event,
        ¬ (m.m_state = ConnMonState.AppProtocolConnected ∧
            e = Event.setAppProtocolState false) →
        ∃ m1 new, m.handle e = some m1 ∧ m1.calls = m.calls ++ new ∧
          appNotifications new
            = if m1.m_state ≠ m.m_state ∧
                  (m1.m_state = ConnMonState.AppProtocolConnected ∨
                   m1.m_state = ConnMonState.Unconnected ∨
                   (m.m_state = ConnMonState.AppProtocolConnected ∧
                     m1.m_state = ConnMonState.StableLanConnection))
              then [m1.isAppProtocolConnected] else [] := by
  obtain ⟨m, hm, ha, hnull⟩ := run_new adapter es
  refine ⟨m, hm, fun e _ => ?_⟩
  cases adapter with
  | none =>
    have hfresh := hnull rfl
    subst hfresh
    exact ⟨ConnMon.new none, [], handle_null_unconnected _ _ e, by simp, rfl⟩
  | some a =>
    exact ⟨_, callsDuring m.m_state e, handle_eq m a e ha, rfl,
      appNotifications_callsDuring m.m_state e⟩

/-- Witness of C7 amended: after "poll with link up, expiry with link up", the call
`setAppProtocolState(true)` emits one `notifyAppProtocolConnected(true)`. -/
theorem app_notification_on_state_entry_witness :
    ∃ m m1 new, (ConnMon.new (some { ident := 5 })).run
        [Event.statusPoll { lanRaw := true, appRaw := false },
         Event.stableCheckExpired { lanRaw := true, appRaw := false }] = some m ∧
      m.handle (Event.setAppProtocolState true) = some m1 ∧
      m1.calls = m.calls ++ new ∧
      appNotifications new
        = if m1.m_state ≠ m.m_state ∧
              (m1.m_state = ConnMonState.AppProtocolConnected ∨
               m1.m_state = ConnMonState.Unconnected ∨
               (m.m_state = ConnMonState.AppProtocolConnected ∧
                 m1.m_state = ConnMonState.StableLanConnection))
          then [m1.isAppProtocolConnected] else [] := by
  obtain ⟨m, hm, h⟩ := app_notification_on_state_entry (some { ident := 5 })
    [Event.statusPoll { lanRaw := true, appRaw := false },
     Event.stableCheckExpired { lanRaw := true, appRaw := false }]
  obtain ⟨m1, new, h1, h2, h3⟩ := h (Event.setAppProtocolState true)
    (fun hc => by cases hc.2)
  exact ⟨m, m1, new, hm, h1, h2, h3⟩

/-- C8: for a monitor with an adapter, in any state and for any event: the event is handled
and extends the history; if the state is the same afterwards, no entry action ran (no
trace line, no notification, no timer start) and the previous state is kept; if the state
differs, exactly one entry action ran, that of the new state entered from the old one.
Consequently the run "poll with link up, timer expiry with link up" of a fresh monitor ends
in `StableLanConnection` having emitted exactly one `notifyLanConnected` call, with value
true. -/
theorem entry_action_once_per_transition (m : ConnMon) (a : ConnMonAdapter) (e : Event)
    (ha : m.m_adapter = some a) :
    (∃ m1 new, m.handle e = some m1 ∧ m1.calls = m.calls ++ new ∧
      (m1.m_state = m.m_state →
        entriesRun new = [] ∧ lanNotifications new = [] ∧ appNotifications new = [] ∧
        timerStarts new = [] ∧ m1.m_prevState = m.m_prevState) ∧
      (m1.m_state ≠ m.m_state →
        entriesRun new = [(m1.m_state, m.m_state)] ∧
        ∃ before after, new = before ++ entryCalls m1.m_state m.m_state ++ after ∧
          entriesRun before = [] ∧ entriesRun after = [])) ∧
    (∀ q1 q2 : Bool, ∃ mf,
      (ConnMon.new (some a)).run [Event.statusPoll { lanRaw := true, appRaw := q1 },
          Event.stableCheckExpired { lanRaw := true, appRaw := q2 }] = some mf ∧
      mf.m_state = ConnMonState.StableLanConnection ∧
      lanNotifications mf.calls = [true]) := by
  constructor
  · refine ⟨_, callsDuring m.m_state e, handle_eq m a e ha, rfl, fun h => ?_, fun h => ?_⟩
    · simp only at h
      obtain ⟨h1, h2, h3, h4⟩ := same_state_quiet _ _ h
      exact ⟨h1, h2, h3, h4, by simp [h]⟩
    · simp only at h
      obtain ⟨h1, h2, h3, h4⟩ := change_runs_entry_once _ _ h
      exact ⟨h1, _, _, h2, h3, h4⟩
  · intro q1 q2
    simp only [ConnMon.run, ConnMon.new, handle_of_adapter, Option.some_bind]
    refine ⟨_, rfl, ?_, ?_⟩ <;> cases q1 <;> cases q2 <;> rfl

/-- Witness of C8: a poll with the link up in `Unconnected`. -/
theorem entry_action_once_per_transition_witness :
    ∃ m1 new, ConnMon.handle (ConnMon.new (some { ident := 4 }))
        (Event.statusPoll { lanRaw := true, appRaw := false }) = some m1 ∧
      m1.calls = (ConnMon.new (some { ident := 4 })).calls ++ new ∧
      m1.m_state = ConnMonState.LanConnected ∧
      entriesRun new = [(ConnMonState.LanConnected, ConnMonState.Unconnected)] := by
  obtain ⟨⟨m1, new, h1, h2, _, h4⟩, _⟩ := entry_action_once_per_transition
    (ConnMon.new (some { ident := 4 })) { ident := 4 }
    (Event.statusPoll { lanRaw := true, appRaw := false }) rfl
  have hs : m1.m_state = ConnMonState.LanConnected := by
    have h := h1
    rw [handle_eq _ { ident := 4 } _ rfl] at h
    cases h
    rfl
  refine ⟨m1, new, h1, h2, hs, ?_⟩
  have h5 := (h4 (by rw [hs]; decide)).1
  rw [hs] at h5
  exact h5

/-- C9, evaluated on the code: constructed with a null adapter, the monitor makes a default
adapter (`new ConnMonAdapter()`) but does not keep it: `adapter()` is still null. -/
theorem new_null_adapter_stays_null :
    (ConnMon.new none).adapter = none ∧
    (ConnMon.new none).calls
      = [Call.newTimer true 1000, Call.newTimer false 2000, Call.newConnMonAdapter] := by
  decide

/-- C10: right after construction, with any adapter pointer, state and previous state are
`Unconnected`, both status outputs are false, and the constructor has emitted no
notification and run no entry action. -/
theorem new_initial_configuration (adapter : Option ConnMonAdapter) :
    (ConnMon.new adapter).state = ConnMonState.Unconnected ∧
    (ConnMon.new adapter).prevState = ConnMonState.Unconnected ∧
    (ConnMon.new adapter).isLanConnected = false ∧
    (ConnMon.new adapter).isAppProtocolConnected = false ∧
    lanNotifications (ConnMon.new adapter).calls = [] ∧
    appNotifications (ConnMon.new adapter).calls = [] ∧
    entriesRun (ConnMon.new adapter).calls = [] := by
  cases adapter <;> refine ⟨rfl, rfl, rfl, rfl, rfl, rfl, rfl⟩

/-- C11: in `LanConnected` a stability-timer expiry changes to `StableLanConnection` when the
raw link query answers true and to `Unconnected` otherwise, and a poll tick that sees the
link up changes nothing but the recorded query. Hence the run of a fresh monitor "poll
with link down, poll with link up, any number of polls with link up, expiry with link up"
ends in `StableLanConnection`, entered from `LanConnected`, with exactly one start of the
stability timer in the whole history. -/
theorem lan_connected_confirmed_by_expiry (a : ConnMonAdapter) (rs : List Raw)
    (hup : ∀ r ∈ rs, r.lanRaw = true) :
    (∀ (p : ConnMonState) (cs : List Call) (r : Raw),
      ConnMon.handle { m_adapter := some a, m_state := ConnMonState.LanConnected,
                       m_prevState := p, calls := cs } (Event.stableCheckExpired r)
        = if r.lanRaw then
            some { m_adapter := some a, m_state := ConnMonState.StableLanConnection,
                   m_prevState := ConnMonState.LanConnected,
                   calls := cs ++ [Call.lanConnectedRaw true,
                     Call.trEntry ConnMonState.StableLanConnection ConnMonState.LanConnected,
                     Call.notifyLanConnected true] }
          else
            some { m_adapter := some a, m_state := ConnMonState.Unconnected,
                   m_prevState := ConnMonState.LanConnected,
                   calls := cs ++ [Call.lanConnectedRaw false,
                     Call.trEntry ConnMonState.Unconnected ConnMonState.LanConnected,
                     Call.notifyLanConnected false,
                     Call.notifyAppProtocolConnected false] }) ∧
    (∀ (p : ConnMonState) (cs : List Call) (q : Bool),
      ConnMon.handle { m_adapter := some a, m_state := ConnMonState.LanConnected,
                       m_prevState := p, calls := cs }
          (Event.statusPoll { lanRaw := true, appRaw := q })
        = some { m_adapter := some a, m_state := ConnMonState.LanConnected,
                 m_prevState := p, calls := cs ++ [Call.lanConnectedRaw true] }) ∧
    (∀ q0 q1 q2 : Bool, ∃ m,
      (ConnMon.new (some a)).run
          ([Event.statusPoll { lanRaw := false, appRaw := q0 },
            Event.statusPoll { lanRaw := true, appRaw := q1 }] ++
           (rs.map Event.statusPoll ++
            [Event.stableCheckExpired { lanRaw := true, appRaw := q2 }])) = some m ∧
      m.m_state = ConnMonState.StableLanConnection ∧
      m.m_prevState = ConnMonState.LanConnected ∧
      timerStarts m.calls = [cStableCheckIntervalMillis]) := by
  refine ⟨fun p cs r => ?_, fun p cs q => ?_, fun q0 q1 q2 => ?_⟩
  · rcases r with ⟨_ | _, _ | _⟩ <;> exact (handle_of_adapter _ _ _ _ _).trans rfl
  · cases q <;> exact (handle_of_adapter _ _ _ _ _).trans rfl
  · have h0 : (ConnMon.new (some a)).run
          [Event.statusPoll { lanRaw := false, appRaw := q0 },
           Event.statusPoll { lanRaw := true, appRaw := q1 }]
        = some { m_adapter := some a, m_state := ConnMonState.LanConnected,
                 m_prevState := ConnMonState.Unconnected,
                 calls := [Call.newTimer true cStatusPollIntervalMillis,
                   Call.newTimer false cStableCheckIntervalMillis,
                   Call.lanConnectedRaw false, Call.lanConnectedRaw true,
                   Call.trEntry ConnMonState.LanConnected ConnMonState.Unconnected,
                   Call.startTimer cStableCheckIntervalMillis] } := by
      cases q0 <;> cases q1 <;> rfl
    obtain ⟨m2, h2, ha2, hs2, _, ht2⟩ := polls_link_up_keep_lan a rs hup _
      (rfl : (ConnMon.mk (some a) ConnMonState.LanConnected ConnMonState.Unconnected
          [Call.newTimer true cStatusPollIntervalMillis,
           Call.newTimer false cStableCheckIntervalMillis,
           Call.lanConnectedRaw false, Call.lanConnectedRaw true,
           Call.trEntry ConnMonState.LanConnected ConnMonState.Unconnected,
           Call.startTimer cStableCheckIntervalMillis]).m_adapter = some a) rfl
    rcases m2 with ⟨_, s2, p2, cs2⟩
    simp only at ha2 hs2 ht2
    subst ha2 hs2
    have h3 : ConnMon.handle
        { m_adapter := some a, m_state := ConnMonState.LanConnected, m_prevState := p2,
          calls := cs2 } (Event.stableCheckExpired { lanRaw := true, appRaw := q2 })
        = some { m_adapter := some a, m_state := ConnMonState.StableLanConnection,
                 m_prevState := ConnMonState.LanConnected,
                 calls := cs2 ++ [Call.lanConnectedRaw true,
                   Call.trEntry ConnMonState.StableLanConnection ConnMonState.LanConnected,
                   Call.notifyLanConnected true] } := by
      cases q2 <;> exact (handle_of_adapter _ _ _ _ _).trans rfl
    refine ⟨{ m_adapter := some a, m_state := ConnMonState.StableLanConnection,
              m_prevState := ConnMonState.LanConnected,
              calls := cs2 ++ [Call.lanConnectedRaw true,
                Call.trEntry ConnMonState.StableLanConnection ConnMonState.LanConnected,
                Call.notifyLanConnected true] }, ?_, rfl, rfl, ?_⟩
    · rw [run_append, h0, Option.some_bind, run_append, h2, Option.some_bind]
      simp only [ConnMon.run, h3, Option.some_bind]
    · simp only
      rw [timerStarts_append, ht2]
      rfl

/-- Witness of C11: two polls with the link up between the entry into `LanConnected` and the
expiry. -/
theorem lan_connected_confirmed_by_expiry_witness :
    ∃ m, (ConnMon.new (some { ident := 8 })).run
        [Event.statusPoll { lanRaw := false, appRaw := false },
         Event.statusPoll { lanRaw := true, appRaw := false },
         Event.statusPoll { lanRaw := true, appRaw := false },
         Event.statusPoll { lanRaw := true, appRaw := true },
         Event.stableCheckExpired { lanRaw := true, appRaw := false }] = some m ∧
      m.m_state = ConnMonState.StableLanConnection ∧
      m.m_prevState = ConnMonState.LanConnected ∧
      timerStarts m.calls = [2000] :=
  (lan_connected_confirmed_by_expiry { ident := 8 }
    [{ lanRaw := true, appRaw := false }, { lanRaw := true, appRaw := true }]
    (by decide)).2.2 false false false

/-- C12: `isLanConnected()` is true exactly in `StableLanConnection` and
`isAppProtocolConnected()` exactly in `AppProtocolConnected`; two monitors in the same state
give the same two answers, whatever their adapter, previous state and history. -/
theorem status_outputs_from_state (m : ConnMon) :
    (m.isLanConnected = true ↔ m.m_state = ConnMonState.StableLanConnection) ∧
    (m.isAppProtocolConnected = true ↔ m.m_state = ConnMonState.AppProtocolConnected) ∧
    (∀ (adapter : Option ConnMonAdapter) (p : ConnMonState) (cs : List Call),
      ConnMon.isLanConnected { m_adapter := adapter, m_state := m.m_state,
                               m_prevState := p, calls := cs } = m.isLanConnected ∧
      ConnMon.isAppProtocolConnected { m_adapter := adapter, m_state := m.m_state,
                                       m_prevState := p, calls := cs }
        = m.isAppProtocolConnected) := by
  rcases m with ⟨a, s, p, cs⟩
  refine ⟨?_, ?_, fun _ _ _ => ⟨rfl, rfl⟩⟩ <;>
    cases s <;> simp [ConnMon.isLanConnected, ConnMon.isAppProtocolConnected, ConnMon.state]

/-- C13: `changeState(s)` first stores the current state as previous state and `s` as
current state and then runs the entry action of `s` on that monitor; with an adapter the
entry action returns and its first call is the trace line showing `state() = s` and
`prevState() =` the state left. Consequently, in every configuration a fresh monitor can
reach, every event is handled; if it changes the state, the previous state afterwards is
the state held before the event, and if it does not, state and previous state are kept. -/
theorem changeState_records_previous (adapter : Option ConnMonAdapter) (es : List Event) :
    (∀ (m : ConnMon) (s : ConnMonState),
      m.changeState s
        = s.virtualEntry { m_adapter := m.m_adapter, m_state := s,
                           m_prevState := m.m_state, calls := m.calls }) ∧
    (∀ (a : ConnMonAdapter) (c p s : ConnMonState) (cs : List Call),
      ConnMon.changeState { m_adapter := some a, m_state := c, m_prevState := p,
                            calls := cs } s
        = some { m_adapter := some a, m_state := s, m_prevState := c,
                 calls := cs ++ entryCalls s c } ∧
      (entryCalls s c).head? = some (Call.trEntry s c)) ∧
    (∃ m, (ConnMon.new adapter).run es = some m ∧
      ∀ e : Event, ∃ m1, m.handle e = some m1 ∧
        (m1.m_state ≠ m.m_state → m1.m_prevState = m.m_state) ∧
        (m1.m_state = m.m_state → m1.m_prevState = m.m_prevState)) := by
  refine ⟨fun m s => rfl, fun a c p s cs => ?_, ?_⟩
  · cases s <;>
      simp [ConnMon.changeState, ConnMonState.virtualEntry, ConnMonState.entry,
        ConnMonState_Unconnected.entry, ConnMonState_LanConnected.entry,
        ConnMonState_StableLanConnection.entry, ConnMonState_AppProtocolConnected.entry,
        ConnMon.adapterCall, ConnMon.record, ConnMon.startStableLanConnCheckTimer,
        ConnMon.state, ConnMon.prevState, entryCalls]
  · obtain ⟨m, hm, ha, hnull⟩ := run_new adapter es
    refine ⟨m, hm, fun e => ?_⟩
    cases adapter with
    | none =>
      have hfresh := hnull rfl
      subst hfresh
      exact ⟨ConnMon.new none, handle_null_unconnected _ _ e, fun h => absurd rfl h,
        fun _ => rfl⟩
    | some a =>
      refine ⟨_, handle_eq m a e ha, fun h => ?_, fun h => ?_⟩
      · simp only at h
        simp [h]
      · simp only at h
        simp [h]

/-- Witness of C13: the poll that takes a fresh monitor from `Unconnected` to
`LanConnected` leaves `Unconnected` as previous state. -/
theorem changeState_records_previous_witness :
    ∃ m1, (ConnMon.new (some { ident := 9 })).handle
        (Event.statusPoll { lanRaw := true, appRaw := false }) = some m1 ∧
      m1.m_state = ConnMonState.LanConnected ∧
      m1.m_prevState = ConnMonState.Unconnected := by
  obtain ⟨m, hm, h⟩ := (changeState_records_previous (some { ident := 9 }) []).2.2
  cases hm
  obtain ⟨m1, h1, h2, _⟩ := h (Event.statusPoll { lanRaw := true, appRaw := false })
  have hs : m1.m_state = ConnMonState.LanConnected := by
    have h3 := h1
    rw [handle_eq _ { ident := 9 } _ rfl] at h3
    cases h3
    rfl
  exact ⟨m1, h1, hs, h2 (by rw [hs]; decide)⟩

/-- C14: with an adapter, `isLanDeviceConnected()` and `isAppProtocolLibConnected()` return
the answer of the adapter's raw query (and make that query); with a null adapter they
return false and touch nothing. The base adapter's `appProtocolConnectedRaw()` is false,
and its `lanConnectedRaw()` is false when `ESP8266` is not defined (and the answer of
`WiFi.isConnected()` when it is). -/
theorem raw_queries_forwarded (adapter : ConnMonAdapter) (s p : ConnMonState)
    (cs : List Call) (r : Raw) (wifiIsConnected : Bool) :
    ConnMon.isLanDeviceConnected
        { m_adapter := some adapter, m_state := s, m_prevState := p, calls := cs } r
      = (r.lanRaw, { m_adapter := some adapter, m_state := s, m_prevState := p,
                     calls := cs ++ [Call.lanConnectedRaw r.lanRaw] }) ∧
    ConnMon.isAppProtocolLibConnected
        { m_adapter := some adapter, m_state := s, m_prevState := p, calls := cs } r
      = (r.appRaw, { m_adapter := some adapter, m_state := s, m_prevState := p,
                     calls := cs ++ [Call.appProtocolConnectedRaw r.appRaw] }) ∧
    ConnMon.isLanDeviceConnected
        { m_adapter := none, m_state := s, m_prevState := p, calls := cs } r
      = (false, { m_adapter := none, m_state := s, m_prevState := p, calls := cs }) ∧
    ConnMon.isAppProtocolLibConnected
        { m_adapter := none, m_state := s, m_prevState := p, calls := cs } r
      = (false, { m_adapter := none, m_state := s, m_prevState := p, calls := cs }) ∧
    adapter.appProtocolConnectedRaw = false ∧
    adapter.lanConnectedRaw false wifiIsConnected = false ∧
    adapter.lanConnectedRaw true wifiIsConnected = wifiIsConnected :=
  ⟨rfl, rfl, rfl, rfl, rfl, rfl, rfl⟩

/-- C15: in `AppProtocolConnected`, a poll tick with raw link true and raw app-protocol
false changes to `StableLanConnection`; its notifications are exactly
`notifyLanConnected(true)` (entry action) followed by `notifyAppProtocolConnected(false)`,
and it starts no timer. With raw link and raw app-protocol both true the tick only makes
the two queries: state and previous state are kept and nothing is emitted. -/
theorem poll_in_app_protocol_connected (m : ConnMon) (a : ConnMonAdapter)
    (ha : m.m_adapter = some a) (hs : m.m_state = ConnMonState.AppProtocolConnected) :
    (∃ new, m.handle (Event.statusPoll { lanRaw := true, appRaw := false })
        = some { m with
                 m_state := ConnMonState.StableLanConnection
                 m_prevState := ConnMonState.AppProtocolConnected
                 calls := m.calls ++ new } ∧
      new = [Call.lanConnectedRaw true, Call.appProtocolConnectedRaw false,
             Call.trEntry ConnMonState.StableLanConnection
               ConnMonState.AppProtocolConnected,
             Call.notifyLanConnected true, Call.notifyAppProtocolConnected false] ∧
      notifications new
        = [Call.notifyLanConnected true, Call.notifyAppProtocolConnected false] ∧
      timerStarts new = []) ∧
    (∃ new, m.handle (Event.statusPoll { lanRaw := true, appRaw := true })
        = some { m with calls := m.calls ++ new } ∧
      new = [Call.lanConnectedRaw true, Call.appProtocolConnectedRaw true] ∧
      notifications new = [] ∧ timerStarts new = [] ∧ entriesRun new = []) := by
  rcases m with ⟨_, s, p, cs⟩
  simp only at ha hs
  subst ha hs
  exact ⟨⟨_, (handle_of_adapter _ _ _ _ _).trans rfl, rfl, rfl, rfl⟩,
    ⟨_, (handle_of_adapter _ _ _ _ _).trans rfl, rfl, rfl, rfl, rfl⟩⟩

/-- Witness of C15: the poll with raw link true and raw app-protocol false. -/
theorem poll_in_app_protocol_connected_witness :
    ConnMon.handle { m_adapter := some { ident := 10 },
                     m_state := ConnMonState.AppProtocolConnected,
                     m_prevState := ConnMonState.StableLanConnection, calls := [] }
        (Event.statusPoll { lanRaw := true, appRaw := false })
      = some { m_adapter := some { ident := 10 },
               m_state := ConnMonState.StableLanConnection,
               m_prevState := ConnMonState.AppProtocolConnected,
               calls := [Call.lanConnectedRaw true, Call.appProtocolConnectedRaw false,
                 Call.trEntry ConnMonState.StableLanConnection
                   ConnMonState.AppProtocolConnected,
                 Call.notifyLanConnected true, Call.notifyAppProtocolConnected false] } := by
  obtain ⟨⟨new, h1, h2, _⟩, _⟩ := poll_in_app_protocol_connected
    { m_adapter := some { ident := 10 }, m_state := ConnMonState.AppProtocolConnected,
      m_prevState := ConnMonState.StableLanConnection, calls := [] } { ident := 10 } rfl rfl
  rw [h1, h2]
  rfl

/-- C16: a poll tick whose raw link query answers true leaves, for a monitor with an
adapter: `Unconnected` for `LanConnected`; `LanConnected` as it is (only the query is
recorded, so no transition and no timer start); `StableLanConnection` for
`AppProtocolConnected` when the raw app-protocol answer is true and as it is otherwise;
`AppProtocolConnected` for `StableLanConnection` when the raw app-protocol answer is false
and as it is otherwise. In `Unconnected` and `LanConnected` the result is the same for both
raw app-protocol answers. -/
theorem poll_link_up_next_state (m : ConnMon) (a : ConnMonAdapter) (r : Raw)
    (ha : m.m_adapter = some a) (hr : r.lanRaw = true) :
    ∃ m1, m.handle (Event.statusPoll r) = some m1 ∧
      m1.m_state
        = (match m.m_state with
           | ConnMonState.Unconnected => ConnMonState.LanConnected
           | ConnMonState.LanConnected => ConnMonState.LanConnected
           | ConnMonState.StableLanConnection =>
               if r.appRaw then ConnMonState.AppProtocolConnected
               else ConnMonState.StableLanConnection
           | ConnMonState.AppProtocolConnected =>
               if r.appRaw then ConnMonState.AppProtocolConnected
               else ConnMonState.StableLanConnection) ∧
      (m.m_state = ConnMonState.LanConnected →
        m1 = { m with calls := m.calls ++ [Call.lanConnectedRaw true] }) ∧
      (m.m_state = ConnMonState.StableLanConnection → r.appRaw = false →
        m1 = { m with calls := m.calls ++
                 [Call.lanConnectedRaw true, Call.appProtocolConnectedRaw false] }) ∧
      (m.m_state = ConnMonState.AppProtocolConnected → r.appRaw = true →
        m1 = { m with calls := m.calls ++
                 [Call.lanConnectedRaw true, Call.appProtocolConnectedRaw true] }) ∧
      (m.m_state = ConnMonState.Unconnected ∨ m.m_state = ConnMonState.LanConnected →
        ∀ q : Bool, m.handle (Event.statusPoll { lanRaw := true, appRaw := q }) = some m1) := by
  rcases m with ⟨_, s, p, cs⟩
  rcases r with ⟨l, q⟩
  simp only at ha hr
  subst ha hr
  cases s <;> cases q <;>
    refine ⟨_, (handle_of_adapter _ _ _ _ _).trans rfl, rfl, ?_, ?_, ?_, ?_⟩ <;>
    first
    | (intro _; rfl)
    | (intro _ _; rfl)
    | (intro h; cases h; done)
    | (intro _ h; cases h; done)
    | (intro h _; rcases h with h | h <;> cases h; done)
    | (intro _ q; cases q <;> exact (handle_of_adapter _ _ _ _ _).trans rfl)

/-- Witness of C16: the poll with link and app-protocol up in `StableLanConnection`. -/
theorem poll_link_up_next_state_witness :
    ∃ m1, ConnMon.handle { m_adapter := some { ident := 11 },
                           m_state := ConnMonState.StableLanConnection,
                           m_prevState := ConnMonState.LanConnected, calls := [] }
        (Event.statusPoll { lanRaw := true, appRaw := true }) = some m1 ∧
      m1.m_state = ConnMonState.AppProtocolConnected := by
  obtain ⟨m1, h1, h2, _⟩ := poll_link_up_next_state
    { m_adapter := some { ident := 11 }, m_state := ConnMonState.StableLanConnection,
      m_prevState := ConnMonState.LanConnected, calls := [] }
    { ident := 11 } { lanRaw := true, appRaw := true } rfl rfl
  exact ⟨m1, h1, h2⟩

/-- C17: for a monitor with an adapter, in any state and for any event: the event starts the
stability timer exactly when it changes the state into `LanConnected`, then once and with
the fixed interval of 2000 ms; and the events that change the state into `LanConnected`
are the poll in `Unconnected` whose raw link query answers true and
`setAppProtocolState(false)` in `AppProtocolConnected`. -/
theorem timer_started_on_lan_entry (m : ConnMon) (a : ConnMonAdapter) (e : Event)
    (ha : m.m_adapter = some a) :
    ∃ m1 new, m.handle e = some m1 ∧ m1.calls = m.calls ++ new ∧
      timerStarts new
        = (if m1.m_state ≠ m.m_state ∧ m1.m_state = ConnMonState.LanConnected
           then [2000] else []) ∧
      ((m1.m_state ≠ m.m_state ∧ m1.m_state = ConnMonState.LanConnected) ↔
        ((m.m_state = ConnMonState.Unconnected ∧
            ∃ r, e = Event.statusPoll r ∧ r.lanRaw = true) ∨
         (m.m_state = ConnMonState.AppProtocolConnected ∧
            e = Event.setAppProtocolState false))) :=
  ⟨_, callsDuring m.m_state e, handle_eq m a e ha, rfl,
    timerStarts_callsDuring m.m_state e, lan_entered_iff m.m_state e⟩

/-- Witness of C17: `setAppProtocolState(false)` in `AppProtocolConnected` starts the timer
once with 2000 ms. -/
theorem timer_started_on_lan_entry_witness :
    ∃ m1 new, ConnMon.handle { m_adapter := some { ident := 12 },
                               m_state := ConnMonState.AppProtocolConnected,
                               m_prevState := ConnMonState.StableLanConnection,
                               calls := [] }
        (Event.setAppProtocolState false) = some m1 ∧
      m1.calls = [] ++ new ∧ timerStarts new = [2000] := by
  obtain ⟨m1, new, h1, h2, h3, h4⟩ := timer_started_on_lan_entry
    { m_adapter := some { ident := 12 }, m_state := ConnMonState.AppProtocolConnected,
      m_prevState := ConnMonState.StableLanConnection, calls := [] }
    { ident := 12 } (Event.setAppProtocolState false) rfl
  rw [if_pos (h4.2 (Or.inr ⟨rfl, rfl⟩))] at h3
  exact ⟨m1, new, h1, h2, h3⟩

/-- C18: a monitor holding a null adapter, as the constructor leaves it when passed 0,
handles every sequence of events and is exactly as before afterwards: state and previous
state `Unconnected`, history unchanged, so no entry action has run and no notification was
made. `changeState` cannot have been invoked, since with a null adapter every
`changeState` call runs into the dereference of the null adapter. -/
theorem null_adapter_stays_unconnected (es : List Event) :
    (ConnMon.new none).adapter = none ∧
    (ConnMon.new none).run es = some (ConnMon.new none) ∧
    (ConnMon.new none).m_state = ConnMonState.Unconnected ∧
    (ConnMon.new none).m_prevState = ConnMonState.Unconnected ∧
    entriesRun (ConnMon.new none).calls = [] ∧
    notifications (ConnMon.new none).calls = [] ∧
    (∀ (p : ConnMonState) (cs : List Call),
      ConnMon.run { m_adapter := none, m_state := ConnMonState.Unconnected,
                    m_prevState := p, calls := cs } es
        = some { m_adapter := none, m_state := ConnMonState.Unconnected,
                 m_prevState := p, calls := cs }) ∧
    (∀ (c p s : ConnMonState) (cs : List Call),
      ConnMon.changeState { m_adapter := none, m_state := c, m_prevState := p,
                            calls := cs } s = none) := by
  have hrun : ∀ (p : ConnMonState) (cs : List Call),
      ConnMon.run { m_adapter := none, m_state := ConnMonState.Unconnected,
                    m_prevState := p, calls := cs } es
        = some { m_adapter := none, m_state := ConnMonState.Unconnected,
                 m_prevState := p, calls := cs } := by
    intro p cs
    induction es with
    | nil => rfl
    | cons e es ih => simp only [ConnMon.run, handle_null_unconnected, Option.some_bind, ih]
  refine ⟨rfl, hrun _ _, rfl, rfl, rfl, rfl, hrun, fun c p s cs => ?_⟩
  cases s <;> rfl

/-- C19: in every configuration a fresh monitor can reach: `AppProtocolConnected` has
previous state `StableLanConnection`; `StableLanConnection` has previous state
`LanConnected` or `AppProtocolConnected`; `LanConnected` has previous state `Unconnected`
or `AppProtocolConnected`; current and previous state are equal only while both are
`Unconnected` and no entry action has run yet; and every entry action that has run was
entered from a different state. -/
theorem previous_current_pairs (adapter : Option ConnMonAdapter) (es : List Event) :
    ∃ m, (ConnMon.new adapter).run es = some m ∧
      (m.m_state = ConnMonState.AppProtocolConnected →
        m.m_prevState = ConnMonState.StableLanConnection) ∧
      (m.m_state = ConnMonState.StableLanConnection →
        m.m_prevState = ConnMonState.LanConnected ∨
        m.m_prevState = ConnMonState.AppProtocolConnected) ∧
      (m.m_state = ConnMonState.LanConnected →
        m.m_prevState = ConnMonState.Unconnected ∨
        m.m_prevState = ConnMonState.AppProtocolConnected) ∧
      (m.m_state = m.m_prevState →
        m.m_state = ConnMonState.Unconnected ∧ entriesRun m.calls = []) ∧
      (∀ sp ∈ entriesRun m.calls, sp.1 ≠ sp.2) := by
  have hE : entriesRun (ConnMon.new adapter).calls = [] := by cases adapter <;> rfl
  have hS : (ConnMon.new adapter).m_state = ConnMonState.Unconnected := by
    cases adapter <;> rfl
  have hP : (ConnMon.new adapter).m_prevState = ConnMonState.Unconnected := by
    cases adapter <;> rfl
  obtain ⟨m, hm, h1, h2, h3⟩ := reachable_induction
    (fun m => (m.m_state = m.m_prevState →
        m.m_state = ConnMonState.Unconnected ∧ entriesRun m.calls = []) ∧
      (m.m_state ≠ m.m_prevState → transitionPair m.m_prevState m.m_state = true) ∧
      (∀ sp ∈ entriesRun m.calls, sp.1 ≠ sp.2))
    adapter
    ⟨fun _ => ⟨hS, hE⟩, fun h => absurd (hS.trans hP.symm) h,
      fun sp hsp => by rw [hE] at hsp; cases hsp⟩
    (fun _ s p cs e h => pairs_step s p cs e h) es
  refine ⟨m, hm, fun h => ?_, fun h => ?_, fun h => ?_, h1, h3⟩
  · have hne : m.m_state ≠ m.m_prevState := fun heq => by
      rw [(h1 heq).1] at h; cases h
    have ht := h2 hne
    rw [h] at ht
    simpa [transitionPair] using ht
  · have hne : m.m_state ≠ m.m_prevState := fun heq => by
      rw [(h1 heq).1] at h; cases h
    have ht := h2 hne
    rw [h] at ht
    simpa [transitionPair] using ht
  · have hne : m.m_state ≠ m.m_prevState := fun heq => by
      rw [(h1 heq).1] at h; cases h
    have ht := h2 hne
    rw [h] at ht
    simpa [transitionPair] using ht

/-- Witness of C19: after "poll with link up, expiry with link up" the monitor is in
`StableLanConnection` with previous state `LanConnected`. -/
theorem previous_current_pairs_witness :
    ∃ m, (ConnMon.new (some { ident := 13 })).run
        [Event.statusPoll { lanRaw := true, appRaw := false },
         Event.stableCheckExpired { lanRaw := true, appRaw := false }] = some m ∧
      m.m_state = ConnMonState.StableLanConnection ∧
      (m.m_prevState = ConnMonState.LanConnected ∨
       m.m_prevState = ConnMonState.AppProtocolConnected) := by
  obtain ⟨m, hm, _, h, _⟩ := previous_current_pairs (some { ident := 13 })
    [Event.statusPoll { lanRaw := true, appRaw := false },
     Event.stableCheckExpired { lanRaw := true, appRaw := false }]
  have hs : m.m_state = ConnMonState.StableLanConnection := by
    have hm2 := hm
    rw [show (ConnMon.new (some { ident := 13 })).run
        [Event.statusPoll { lanRaw := true, appRaw := false },
         Event.stableCheckExpired { lanRaw := true, appRaw := false }] = some _ from rfl]
      at hm2
    cases hm2
    rfl
  exact ⟨m, hm, hs, h hs⟩

end ConnMonSpec
